import Mathlib

/-
  Verification development for the gaze-estimation and calibration engine
  of this repository (src/src/App.tsx, src/unnamed/part_002,
  src/build/static/tracking.js).

  The numeric model uses exact rationals (ℚ) for the JavaScript float
  arithmetic; square roots and inverse trigonometric values, which are
  irrational, are handled either by passing the exact square-root value as an
  explicit parameter constrained by a hypothesis (m ^ 2 = the radicand), or by
  real-valued definitions.  An IEEE NaN outcome is modelled as `Option.none`
  or as an `Except.error` carrying the source's exception message.
-/

/-- Point2D from App.tsx: a 2-dimensional point with rational coordinates. -/
structure Point2D where
  x : ℚ
  y : ℚ
deriving DecidableEq

/-- Point3D from App.tsx: a 3-dimensional point with rational coordinates. -/
structure Point3D where
  x : ℚ
  y : ℚ
  z : ℚ
deriving DecidableEq

/-- Dot product of two 3-dimensional vectors, as inlined throughout App.tsx. -/
def dot3 (a b : Point3D) : ℚ :=
  a.x * b.x + a.y * b.y + a.z * b.z

/-- Squared Euclidean norm of a 3-dimensional vector. -/
def normSq (a : Point3D) : ℚ :=
  a.x * a.x + a.y * a.y + a.z * a.z

/-- Squared Euclidean distance between two 3-dimensional points. -/
def distSq (a b : Point3D) : ℚ :=
  (a.x - b.x) * (a.x - b.x) + (a.y - b.y) * (a.y - b.y) + (a.z - b.z) * (a.z - b.z)

/-- Cross product of two 3-dimensional vectors, as inlined in App.tsx
    (lines 349-353 and 595-599). -/
def cross3 (v1 v2 : Point3D) : Point3D :=
  ⟨v1.y * v2.z - v1.z * v2.y,
   v1.z * v2.x - v1.x * v2.z,
   v1.x * v2.y - v1.y * v2.x⟩

/-- adjustGazeForHeadPose from App.tsx lines 76-84: projects the gaze vector
    onto the face plane by removing its component along the head-pose normal. -/
def adjustGazeForHeadPose (vector headPose : Point3D) : Point3D :=
  let dot := vector.x * headPose.x + vector.y * headPose.y + vector.z * headPose.z
  ⟨vector.x - dot * headPose.x,
   vector.y - dot * headPose.y,
   vector.z - dot * headPose.z⟩

/-- The 2-by-3 calibration matrix [[a, b, c], [d, e, f]] produced by
    calculateCalibrationMatrix in App.tsx (lines 876-879).  The App stores it
    in React state as `number[][]`, which is either the empty list (no
    calibration) or this 2-by-3 shape; the empty case is modelled by wrapping
    the matrix in `Option` at use sites. -/
structure CalibMatrix where
  a : ℚ
  b : ℚ
  c : ℚ
  d : ℚ
  e : ℚ
  f : ℚ
deriving DecidableEq

/-- Clamp-to-screen-bounds step of App.tsx lines 689-691:
    screenX = Math.max(0, Math.min(screenX, window.innerWidth)), and likewise
    for screenY with window.innerHeight. -/
def clampPoint (sx sy W H : ℚ) : ℚ × ℚ :=
  (max 0 (min sx W), max 0 (min sy H))

/-- The calibration-or-raw-mapping branch of App.tsx lines 677-687: if a
    calibration matrix is available apply the affine transform to the relative
    gaze coordinates, otherwise map the normalized [-1, 1] coordinates to
    pixels via ((v + 1) / 2) * dimension. -/
def applyCalibrationOrMap (mat : Option CalibMatrix) (rgx rgy W H : ℚ) : ℚ × ℚ :=
  match mat with
  | some M => (M.a * rgx + M.b * rgy + M.c, M.d * rgx + M.e * rgy + M.f)
  | none => (((rgx + 1) / 2) * W, ((rgy + 1) / 2) * H)

/-- App.tsx lines 677-691: the screen point produced from the relative gaze
    coordinates, after the calibration-or-raw branch and the clamp. -/
def screenPointClamped (mat : Option CalibMatrix) (rgx rgy W H : ℚ) : ℚ × ℚ :=
  let p := applyCalibrationOrMap mat rgx rgy W H
  clampPoint p.1 p.2 W H

/-- Modelled from the spec (section 4.4 ScreenProjector): the raw uncalibrated
    screen point, "map the normalized [-1,1] intersection range to pixel
    coordinates via ((v+1)/2) * screenDimension; clamp to [0, dimension]".
    Used to compare the code's no-calibration output against the spec's
    ScreenProjector raw output (claim C1). -/
def specRawScreenPoint (rgx rgy W H : ℚ) : ℚ × ℚ :=
  (max 0 (min (((rgx + 1) / 2) * W) W), max 0 (min (((rgy + 1) / 2) * H) H))

/-- The 3D screen-intersection step of App.tsx lines 636-691, starting from the
    combined (fused) gaze vector.  The parameter `m` stands for the value of
    Math.sqrt of the squared magnitude of `g` (theorems constrain it by
    m ^ 2 = normSq g and 0 <= m).  The source sequence is: throw on zero
    magnitude (line 642); normalize; t = -screenDistance / normalizedGaze.z
    with screenDistance = 0.6 (lines 653-656); throw when t is not finite
    (division by zero, modelled by the z / m = 0 test) or negative (line 659);
    intersect; convert to relative [-1, 1] coordinates over a 0.4 m screen
    width (lines 664-673); then the calibration-or-raw branch and clamp
    (lines 677-691). -/
def project3DGaze (g : Point3D) (m : ℚ) (mat : Option CalibMatrix) (W H : ℚ) :
    Except String (ℚ × ℚ) :=
  if m = 0 then .error ("Invalid gaze vector: zero magnitude")
  else
    let nx := g.x / m
    let ny := g.y / m
    let nz := g.z / m
    if nz = 0 then
      .error ("No valid screen intersection - gaze may be parallel to screen or looking away")
    else
      let t := -(0.6 : ℚ) / nz
      if t < 0 then
        .error ("No valid screen intersection - gaze may be parallel to screen or looking away")
      else
        let ix := g.x + nx * t
        let iy := g.y + ny * t
        let sW : ℚ := 0.4
        let sH : ℚ := sW * (H / W)
        let rgx := ix / (sW / 2)
        let rgy := iy / (sH / 2)
        .ok (screenPointClamped mat rgx rgy W H)

/-- The cursor-sink message of App.tsx lines 776-796: adjustedX defaults to the
    fused gaze x (gazeX); when a calibration matrix is present it is replaced
    by the affine transform of the relative gaze coordinates; the message posts
    adjustedX * window.innerWidth and adjustedY * window.innerHeight with no
    clamping. -/
def cursorSinkMessage (mat : Option CalibMatrix) (gazeX gazeY rgx rgy W H : ℚ) : ℚ × ℚ :=
  let adjX := match mat with
    | some M => M.a * rgx + M.b * rgy + M.c
    | none => gazeX
  let adjY := match mat with
    | some M => M.d * rgx + M.e * rgy + M.f
    | none => gazeY
  (adjX * W, adjY * H)

/-- Head-pose estimation core of App.tsx lines 582-617 (same pattern at lines
    337-370 with the message "Invalid head pose calculation: zero magnitude"):
    cross the two edge vectors, take the magnitude, throw when it is zero and
    otherwise return the normalized normal vector.  The magnitude is the real
    square root of the rational squared norm. -/
noncomputable def headPoseOf (v1 v2 : Point3D) : Except String (ℝ × ℝ × ℝ) :=
  let nv := cross3 v1 v2
  let m : ℝ := Real.sqrt ((normSq nv : ℚ) : ℝ)
  if m = 0 then .error ("Invalid normal vector: zero magnitude")
  else .ok (((nv.x : ℝ)) / m, ((nv.y : ℝ)) / m, ((nv.z : ℝ)) / m)

/-- The eye-landmark subset consumed by calculateEyeRotation in
    src/unnamed/part_002 (lines 146-172): eye corner center, iris center and
    the four surrounding iris landmarks. -/
structure EyeLandmarks where
  center : Point3D
  irisCenter : Point3D
  irisLeft : Point3D
  irisRight : Point3D
  irisTop : Point3D
  irisBottom : Point3D
deriving DecidableEq

/-- Squared iris horizontal extent (part_002 lines 205-209: irisWidthX is the
    square root of this quantity). -/
def irisWidthSq (e : EyeLandmarks) : ℚ :=
  distSq e.irisRight e.irisLeft

/-- Squared iris vertical extent (part_002 lines 210-214: irisHeightY is the
    square root of this quantity). -/
def irisHeightSq (e : EyeLandmarks) : ℚ :=
  distSq e.irisTop e.irisBottom

/-- Math.acos with its NaN-outside-domain behaviour: `none` models the IEEE
    NaN returned for arguments outside [-1, 1]. -/
noncomputable def acosJS (x : ℝ) : Option ℝ :=
  if -1 ≤ x ∧ x ≤ 1 then some (Real.arccos x) else none

/-- Math.atan2 on rational arguments (part_002 lines 218-225 only ever passes
    coordinate differences).  Total: Math.atan2(0, 0) = 0, never NaN. -/
noncomputable def atan2JS (y x : ℚ) : ℝ :=
  if 0 < x then Real.arctan ((y : ℝ) / (x : ℝ))
  else if x < 0 then
    (if 0 ≤ y then Real.arctan ((y : ℝ) / (x : ℝ)) + Real.pi
     else Real.arctan ((y : ℝ) / (x : ℝ)) - Real.pi)
  else
    (if 0 < y then Real.pi / 2 else if y < 0 then -(Real.pi / 2) else 0)

/-- calculateEyeRotation from src/unnamed/part_002 lines 203-228.
    rotationX = Math.acos(irisHeightY / irisWidthX): when irisWidthX = 0 the
    ratio is NaN (0/0) or +Infinity (h/0), and Math.acos of either is NaN, so
    that branch is `none` directly; otherwise acosJS captures the
    outside-[-1,1] NaN.  rotationY = Math.atan2(irisCenter.z - center.z,
    irisCenter.x - center.x) and rotationZ = Math.atan2(irisCenter.y -
    center.y, irisCenter.x - center.x) are total.  There is no epsilon guard
    anywhere in the source function. -/
noncomputable def calculateEyeRotation (e : EyeLandmarks) : Option ℝ × ℝ × ℝ :=
  let w : ℝ := Real.sqrt ((irisWidthSq e : ℚ) : ℝ)
  let h : ℝ := Real.sqrt ((irisHeightSq e : ℚ) : ℝ)
  (if w = 0 then none else acosJS (h / w),
   atan2JS (e.irisCenter.z - e.center.z) (e.irisCenter.x - e.center.x),
   atan2JS (e.irisCenter.y - e.center.y) (e.irisCenter.x - e.center.x))

/-- Iris position relative to the eye-corner midpoint, normalized by eye
    width, from calculateEyeGazeVector in src/build/static/tracking.js lines
    154-159.  `eyeWidth` stands for the value of Math.sqrt of
    distSq outer inner (tracking.js lines 148-152). -/
def irisOffsetOf (iris inner outer : Point3D) (eyeWidth : ℚ) : Point3D :=
  ⟨(iris.x - (inner.x + outer.x) / 2) / eyeWidth,
   (iris.y - (inner.y + outer.y) / 2) / eyeWidth,
   (iris.z - (inner.z + outer.z) / 2) / eyeWidth⟩

/-- calculateEyeGazeVector from src/build/static/tracking.js lines 146-173:
    normalize the iris offset and invert x "to correct left-right reversal"
    of the mirrored video.  `mag` stands for the value of Math.sqrt of
    normSq (irisOffsetOf iris inner outer eyeWidth) (lines 162-166). -/
def calculateEyeGazeVector (iris inner outer : Point3D) (eyeWidth mag : ℚ) : Point3D :=
  let o := irisOffsetOf iris inner outer eyeWidth
  ⟨-(o.x / mag), o.y / mag, o.z / mag⟩

/-- CALIBRATION_POINTS from App.tsx lines 54-58: the fixed 3-by-3 grid of
    normalized target positions, row-major. -/
def CALIBRATION_POINTS : List Point2D :=
  [⟨0.1, 0.1⟩, ⟨0.5, 0.1⟩, ⟨0.9, 0.1⟩,
   ⟨0.1, 0.5⟩, ⟨0.5, 0.5⟩, ⟨0.9, 0.5⟩,
   ⟨0.1, 0.9⟩, ⟨0.5, 0.9⟩, ⟨0.9, 0.9⟩]

/-- calibrationMode from App.tsx line 90:
    useState of idle, collecting or complete. -/
inductive CalibrationMode where
  | idle : CalibrationMode
  | collecting : CalibrationMode
  | complete : CalibrationMode
deriving DecidableEq

/-- CalibrationState from App.tsx lines 19-23 plus the calibrationMode flag:
    current grid-point index and the per-point sample buffers. -/
structure CalibrationState where
  mode : CalibrationMode
  currentPoint : Nat
  eyePositions : List Point3D
  headPoses : List Point3D
deriving DecidableEq

/-- One invocation of calculateCalibrationMatrix as performed by App.tsx lines
    764-768: the argument lists passed to the solver. -/
structure SolverCall where
  eyePositions : List Point3D
  screenPositions : List Point2D
  headPoses : List Point3D
deriving DecidableEq

/-- Component-wise average of the collected samples, App.tsx lines 753-755. -/
def averagePoint (l : List Point3D) : Point3D :=
  let n : ℚ := l.length
  ⟨(l.map (fun p => p.x)).sum / n,
   (l.map (fun p => p.y)).sum / n,
   (l.map (fun p => p.z)).sum / n⟩

/-- The calibration-collection block of App.tsx lines 745-774, one camera
    frame: push the fused gaze sample and head pose; once 30 samples are
    buffered, either advance to the next grid point discarding the buffers
    (currentPoint < 8, lines 757-761) or, on the ninth point, invoke the
    solver with a single averaged sample, the ninth target and the last head
    pose, and mark the session complete (lines 762-771).  Frames arriving
    outside collecting mode do not touch the session. -/
def processCalibrationFrame (st : CalibrationState) (g hp : Point3D) :
    CalibrationState × Option SolverCall :=
  if st.mode = CalibrationMode.collecting then
    let eyes := st.eyePositions ++ [g]
    let heads := st.headPoses ++ [hp]
    if 30 ≤ eyes.length then
      let avg := averagePoint eyes
      if st.currentPoint < 8 then
        (⟨CalibrationMode.collecting, st.currentPoint + 1, [], []⟩, none)
      else
        (⟨CalibrationMode.complete, st.currentPoint, eyes, heads⟩,
         some ⟨[avg],
               [CALIBRATION_POINTS.getD st.currentPoint ⟨0, 0⟩],
               [heads.getLastD ⟨0, 0, 0⟩]⟩)
    else
      (⟨CalibrationMode.collecting, st.currentPoint, eyes, heads⟩, none)
  else
    (st, none)

/-- Run a whole sequence of frames through the calibration session, collecting
    every solver invocation in order. -/
def runCalibration (st : CalibrationState) : List (Point3D × Point3D) →
    CalibrationState × List SolverCall
  | [] => (st, [])
  | (g, hp) :: rest =>
    let step := processCalibrationFrame st g hp
    let tail := runCalibration step.1 rest
    (tail.1, step.2.toList ++ tail.2)

/-- startCalibration from App.tsx lines 799-810: collecting mode, point index
    0, empty buffers. -/
def initialCalibrationState : CalibrationState :=
  ⟨CalibrationMode.collecting, 0, [], []⟩

/-- Per-sample weight of calculateCalibrationMatrix, App.tsx lines 831-834:
    headFactor = Math.abs(headPose.z), depthFactor = 1 / (1 + Math.abs(z))
    (the denominator is at least 1, so this division is always finite),
    weight = headFactor * depthFactor. -/
def sampleWeight (e hp : Point3D) : ℚ :=
  |hp.z| * (1 / (1 + |e.z|))

/-- The per-iteration triples of the solver loop, App.tsx lines 825-828: the
    i-th eye position and screen position with headPoses?.[i] || {x:0, y:0,
    z:1} (the default applies when the headPoses argument is absent or too
    short). -/
def calibRows : List Point3D → List Point2D → List Point3D →
    List (Point3D × Point2D × Point3D)
  | e :: es, s :: ss, hps =>
    (e, s, hps.headD ⟨0, 0, 1⟩) :: calibRows es ss hps.tail
  | _, _, _ => []

/-- Weighted accumulation over the solver loop: the sum of
    f eyePosition screenPosition headPose over all iterations
    (App.tsx lines 836-858). -/
def calibSum (rows : List (Point3D × Point2D × Point3D))
    (f : Point3D → Point2D → Point3D → ℚ) : ℚ :=
  (rows.map (fun r => f r.1 r.2.1 r.2.2)).sum

/-- sumXX * sumYY - sumXY * sumXY, the determinant of the normal-equations
    system (App.tsx line 862). -/
def calibDet (eyes : List Point3D) (screens : List Point2D) (heads : List Point3D) : ℚ :=
  let rows := calibRows eyes screens heads
  let sumXX := calibSum rows (fun e _ hp => sampleWeight e hp * e.x * e.x)
  let sumXY := calibSum rows (fun e _ hp => sampleWeight e hp * e.x * e.y)
  let sumYY := calibSum rows (fun e _ hp => sampleWeight e hp * e.y * e.y)
  sumXX * sumYY - sumXY * sumXY

/-- Division with the JavaScript nonfinite outcome made explicit: a zero
    denominator yields Infinity or NaN in the source, modelled as an error. -/
def fdiv (a b : ℚ) : Except String ℚ :=
  if b = 0 then .error ("nonfinite") else .ok (a / b)

/-- calculateCalibrationMatrix from App.tsx lines 813-880: weighted
    accumulation (the loop of lines 825-859, expressed sum-by-sum through
    calibSum; the unused accumulators sumXZ, sumYZ, sumZScreenX and sumZScreenY
    are omitted), the determinant test with the [[1,0,0],[0,1,0]] fallback
    (lines 862-863), the six coefficients (lines 866-872) and the depth scale
    applied to the linear coefficients (lines 875-879). -/
def calculateCalibrationMatrix (eyes : List Point3D) (screens : List Point2D)
    (heads : List Point3D) : Except String CalibMatrix :=
  let n : ℚ := eyes.length
  let rows := calibRows eyes screens heads
  let sumX := calibSum rows (fun e _ hp => sampleWeight e hp * e.x)
  let sumY := calibSum rows (fun e _ hp => sampleWeight e hp * e.y)
  let sumZ := calibSum rows (fun e _ hp => sampleWeight e hp * e.z)
  let sumXX := calibSum rows (fun e _ hp => sampleWeight e hp * e.x * e.x)
  let sumXY := calibSum rows (fun e _ hp => sampleWeight e hp * e.x * e.y)
  let sumYY := calibSum rows (fun e _ hp => sampleWeight e hp * e.y * e.y)
  let sumScreenX := calibSum rows (fun _ s _ => s.x)
  let sumScreenY := calibSum rows (fun _ s _ => s.y)
  let sumXScreenX := calibSum rows (fun e s hp => sampleWeight e hp * e.x * s.x)
  let sumYScreenX := calibSum rows (fun e s hp => sampleWeight e hp * e.y * s.x)
  let sumXScreenY := calibSum rows (fun e s hp => sampleWeight e hp * e.x * s.y)
  let sumYScreenY := calibSum rows (fun e s hp => sampleWeight e hp * e.y * s.y)
  let det := sumXX * sumYY - sumXY * sumXY
  if |det| < 1e-10 then .ok ⟨1, 0, 0, 0, 1, 0⟩
  else do
    let a ← fdiv (sumXScreenX * sumYY - sumYScreenX * sumXY) det
    let b ← fdiv (sumXX * sumYScreenX - sumXY * sumXScreenX) det
    let c ← fdiv (sumScreenX - a * sumX - b * sumY) n
    let d ← fdiv (sumXScreenY * sumYY - sumYScreenY * sumXY) det
    let e ← fdiv (sumXX * sumYScreenY - sumXY * sumXScreenY) det
    let f ← fdiv (sumScreenY - d * sumX - e * sumY) n
    let zAvg ← fdiv sumZ n
    let depthScale ← fdiv 1 (1 + |zAvg|)
    .ok ⟨a * depthScale, b * depthScale, c, d * depthScale, e * depthScale, f⟩

/-- Squared distances are nonnegative. -/
lemma distSq_nonneg (a b : Point3D) : 0 ≤ distSq a b := by
  unfold distSq
  have h1 := mul_self_nonneg (a.x - b.x)
  have h2 := mul_self_nonneg (a.y - b.y)
  have h3 := mul_self_nonneg (a.z - b.z)
  linarith

/-- Squared norms are nonnegative. -/
lemma normSq_nonneg (a : Point3D) : 0 ≤ normSq a := by
  unfold normSq
  have h1 := mul_self_nonneg a.x
  have h2 := mul_self_nonneg a.y
  have h3 := mul_self_nonneg a.z
  linarith

/-- A vector has zero squared norm exactly when it is the zero vector. -/
lemma normSq_eq_zero_iff (a : Point3D) : normSq a = 0 ↔ a = ⟨0, 0, 0⟩ := by
  constructor
  · intro h
    unfold normSq at h
    have hx : a.x = 0 := by nlinarith [mul_self_nonneg a.x, mul_self_nonneg a.y, mul_self_nonneg a.z]
    have hy : a.y = 0 := by nlinarith [mul_self_nonneg a.x, mul_self_nonneg a.y, mul_self_nonneg a.z]
    have hz : a.z = 0 := by nlinarith [mul_self_nonneg a.x, mul_self_nonneg a.y, mul_self_nonneg a.z]
    cases a
    simp_all
  · intro h
    subst h
    unfold normSq
    norm_num

/-- C1: Identity passthrough — while no calibration matrix is available, the
    screen point computed by App.tsx lines 676-691 equals the raw projected
    screen point exactly: the spec's ScreenProjector raw output, the pixel
    mapping ((v+1)/2) * dimension of the uncalibrated relative gaze
    coordinates, clamped, with no transform applied. -/
theorem C1_identity_passthrough (rgx rgy W H : ℚ) :
    screenPointClamped none rgx rgy W H = specRawScreenPoint rgx rgy W H := rfl

/-- C9: adjustGazeForHeadPose is an orthogonal projection — for a unit
    head-pose vector, the compensated vector has exact dot product 0 with the
    head pose, and the compensation is idempotent. -/
theorem C9_orthogonal_projection (v h : Point3D) (h1 : normSq h = 1) :
    dot3 (adjustGazeForHeadPose v h) h = 0 ∧
    adjustGazeForHeadPose (adjustGazeForHeadPose v h) h = adjustGazeForHeadPose v h := by
  unfold normSq at h1
  constructor
  · simp only [adjustGazeForHeadPose, dot3]
    linear_combination (-(v.x * h.x + v.y * h.y + v.z * h.z)) * h1
  · simp only [adjustGazeForHeadPose]
    have hx : ∀ u w : Point3D, u.x = w.x → u.y = w.y → u.z = w.z → u = w := by
      intro u w e1 e2 e3
      cases u; cases w; simp_all
    apply hx
    · simp only
      linear_combination ((v.x * h.x + v.y * h.y + v.z * h.z) * h.x) * h1
    · simp only
      linear_combination ((v.x * h.x + v.y * h.y + v.z * h.z) * h.y) * h1
    · simp only
      linear_combination ((v.x * h.x + v.y * h.y + v.z * h.z) * h.z) * h1

/-- C9 witness: the theorem instantiated at v = (1, 2, 3) and the unit head
    pose (0, 0, 1). -/
theorem C9_witness :
    normSq ⟨0, 0, 1⟩ = 1 ∧
    (dot3 (adjustGazeForHeadPose ⟨1, 2, 3⟩ ⟨0, 0, 1⟩) ⟨0, 0, 1⟩ = 0 ∧
     adjustGazeForHeadPose (adjustGazeForHeadPose ⟨1, 2, 3⟩ ⟨0, 0, 1⟩) ⟨0, 0, 1⟩ =
       adjustGazeForHeadPose ⟨1, 2, 3⟩ ⟨0, 0, 1⟩) :=
  ⟨by norm_num [normSq], C9_orthogonal_projection ⟨1, 2, 3⟩ ⟨0, 0, 1⟩ (by norm_num [normSq])⟩

/-- C5 (amended): on the main output path of App.tsx lines 676-691 the screen
    point is clamped to [0, width] x [0, height], calibrated and uncalibrated
    branch alike; the claim's universal clamping does not extend to the
    cursor-sink message of lines 776-796, which is sent unclamped (see the
    counterexample). -/
theorem C5_main_path_clamped (mat : Option CalibMatrix) (rgx rgy W H : ℚ)
    (hW : 0 ≤ W) (hH : 0 ≤ H) :
    0 ≤ (screenPointClamped mat rgx rgy W H).1 ∧
    (screenPointClamped mat rgx rgy W H).1 ≤ W ∧
    0 ≤ (screenPointClamped mat rgx rgy W H).2 ∧
    (screenPointClamped mat rgx rgy W H).2 ≤ H := by
  unfold screenPointClamped clampPoint
  exact ⟨le_max_left _ _, max_le hW (min_le_right _ _),
         le_max_left _ _, max_le hH (min_le_right _ _)⟩

/-- C5 witness: width 1920, height 1080; a raw pre-clamp screen x of -50
    (relative gaze x = -101/96) yields output x = 0, and the clamped point
    lies in bounds, by the theorem. -/
theorem C5_witness :
    (0 : ℚ) ≤ 1920 ∧ (0 : ℚ) ≤ 1080 ∧
    applyCalibrationOrMap none (-101 / 96) 0 1920 1080 = (-50, 540) ∧
    screenPointClamped none (-101 / 96) 0 1920 1080 = (0, 540) ∧
    (0 ≤ (screenPointClamped none (-101 / 96) 0 1920 1080).1 ∧
     (screenPointClamped none (-101 / 96) 0 1920 1080).1 ≤ 1920 ∧
     0 ≤ (screenPointClamped none (-101 / 96) 0 1920 1080).2 ∧
     (screenPointClamped none (-101 / 96) 0 1920 1080).2 ≤ 1080) :=
  ⟨by norm_num, by norm_num,
   by norm_num [applyCalibrationOrMap],
   by norm_num [screenPointClamped, applyCalibrationOrMap, clampPoint, max_def, min_def],
   C5_main_path_clamped none (-101 / 96) 0 1920 1080 (by norm_num) (by norm_num)⟩

/-- C5 counterexample: the cursor-sink output path of App.tsx lines 776-796 is
    not clamped — with the calibration matrix [[1,0,0],[0,1,0]] and relative
    gaze x = -50, the message posted to the cursor sink has
    x = -96000, outside [0, 1920], refuting the claim that every delivered
    output point is clamped. -/
theorem C5_counterexample :
    cursorSinkMessage (some ⟨1, 0, 0, 0, 1, 0⟩) 0 0 (-50) 0 1920 1080 = (-96000, 0) ∧
    ¬ (0 ≤ (cursorSinkMessage (some ⟨1, 0, 0, 0, 1, 0⟩) 0 0 (-50) 0 1920 1080).1) := by
  constructor
  · norm_num [cursorSinkMessage]
  · norm_num [cursorSinkMessage]

/-- C2 (amended): the screen-intersection step of App.tsx lines 652-661 throws
    the "No valid screen intersection" exception (caught by the 2D fallback,
    so frame processing continues) precisely when the fused gaze z-component
    is nonnegative — t = -0.6/z is nonfinite or negative there — and for
    negative z (the direction toward the screen in this convention) the
    projection proceeds and produces a point; no screen-center/confidence-0
    sentinel exists in the code. -/
theorem C2_looking_away (g : Point3D) (m : ℚ) (mat : Option CalibMatrix) (W H : ℚ)
    (hmSq : m ^ 2 = normSq g) (hm : 0 ≤ m) :
    (0 ≤ g.z → ∃ msg, project3DGaze g m mat W H = .error msg) ∧
    (g.z < 0 → ∃ p, project3DGaze g m mat W H = .ok p) := by
  constructor
  · intro hz
    by_cases h0 : m = 0
    · exact ⟨_, by rw [project3DGaze, if_pos h0]⟩
    · have hmpos : 0 < m := lt_of_le_of_ne hm (Ne.symm h0)
      by_cases hz0 : g.z = 0
      · refine ⟨("No valid screen intersection - gaze may be parallel to screen or looking away"), ?_⟩
        rw [project3DGaze, if_neg h0]
        simp only [hz0, zero_div]
        simp
      · have hzpos : 0 < g.z := lt_of_le_of_ne hz (Ne.symm hz0)
        have hnz : 0 < g.z / m := div_pos hzpos hmpos
        refine ⟨("No valid screen intersection - gaze may be parallel to screen or looking away"), ?_⟩
        rw [project3DGaze, if_neg h0, if_neg (ne_of_gt hnz)]
        rw [if_pos]
        exact div_neg_of_neg_of_pos (by norm_num) hnz
  · intro hz
    have hz0 : g.z ≠ 0 := ne_of_lt hz
    have hnormpos : 0 < normSq g := by
      unfold normSq
      nlinarith [mul_self_nonneg g.x, mul_self_nonneg g.y, mul_self_pos.mpr hz0]
    have h0 : m ≠ 0 := by
      intro h
      rw [h] at hmSq
      simp at hmSq
      exact absurd hmSq.symm (ne_of_gt hnormpos)
    have hmpos : 0 < m := lt_of_le_of_ne hm (Ne.symm h0)
    have hnz : g.z / m < 0 := div_neg_of_neg_of_pos hz hmpos
    refine ⟨screenPointClamped mat ((g.x + g.x / m * (-(0.6 : ℚ) / (g.z / m))) / ((0.4 : ℚ) / 2))
      ((g.y + g.y / m * (-(0.6 : ℚ) / (g.z / m))) / ((0.4 : ℚ) * (H / W) / 2)) W H, ?_⟩
    rw [project3DGaze, if_neg h0, if_neg (ne_of_lt hnz)]
    rw [if_neg]
    push_neg
    exact div_nonneg_of_nonpos (by norm_num) (le_of_lt hnz)

/-- C2 witness: the fused gaze (1, 2, 2) has magnitude 3 and nonnegative
    z-component, and the projection step rejects it with an exception. -/
theorem C2_witness :
    (3 : ℚ) ^ 2 = normSq ⟨1, 2, 2⟩ ∧ (0 : ℚ) ≤ 3 ∧
    (∃ msg, project3DGaze ⟨1, 2, 2⟩ 3 none 1920 1080 = .error msg) :=
  ⟨by norm_num [normSq], by norm_num,
   (C2_looking_away ⟨1, 2, 2⟩ 3 none 1920 1080 (by norm_num [normSq])
     (by norm_num)).1 (by norm_num)⟩

/-- C2 counterexample: the fused gaze (1, 2, -2) has magnitude 3 and negative
    z-component (normalized z = -2/3 ≤ 0, the claim's looking-away case), yet
    the code projects it normally and produces the clamped corner point
    (1920, 1080) on a 1920 x 1080 screen — not the screen-center sentinel
    (960, 540), and no confidence-0 result exists. -/
theorem C2_counterexample :
    (3 : ℚ) ^ 2 = normSq ⟨1, 2, -2⟩ ∧
    ((⟨1, 2, -2⟩ : Point3D).z ≤ 0) ∧
    project3DGaze ⟨1, 2, -2⟩ 3 none 1920 1080 = .ok (1920, 1080) ∧
    ((1920 : ℚ), (1080 : ℚ)) ≠ ((1920 : ℚ) / 2, (1080 : ℚ) / 2) := by
  refine ⟨by norm_num [normSq], by norm_num, ?_, by norm_num [Prod.ext_iff]⟩
  norm_num [project3DGaze, screenPointClamped, applyCalibrationOrMap, clampPoint,
    min_def, max_def]

/-- C4 (amended): the head-pose computation of App.tsx lines 582-617 (and the
    twin at lines 337-370) throws its zero-magnitude exception exactly on
    degenerate input — when the cross product of the landmark edge vectors is
    the zero vector; it does not return a zero-vector sentinel, and only exact
    zero magnitude is checked (near-zero proceeds). -/
theorem C4_head_pose_degenerate (v1 v2 : Point3D) :
    headPoseOf v1 v2 = .error ("Invalid normal vector: zero magnitude") ↔
    cross3 v1 v2 = ⟨0, 0, 0⟩ := by
  by_cases h : cross3 v1 v2 = ⟨0, 0, 0⟩
  · have hq : normSq (cross3 v1 v2) = 0 := (normSq_eq_zero_iff _).mpr h
    simp only [headPoseOf, hq]
    norm_num
    exact h
  · have hq : normSq (cross3 v1 v2) ≠ 0 := fun hh => h ((normSq_eq_zero_iff _).mp hh)
    have hqpos : 0 < normSq (cross3 v1 v2) := lt_of_le_of_ne (normSq_nonneg _) (Ne.symm hq)
    have hs : Real.sqrt ((normSq (cross3 v1 v2) : ℚ) : ℝ) ≠ 0 := by
      rw [Real.sqrt_ne_zero']
      exact_mod_cast hqpos
    simp only [headPoseOf, if_neg hs]
    simp [h]

/-- C4 counterexample: the collinear edge vectors (1,0,0) and (2,0,0) have a
    zero cross product; the head-pose step throws its exception there instead
    of returning the zero-vector sentinel, refuting "never throws". -/
theorem C4_counterexample :
    cross3 ⟨1, 0, 0⟩ ⟨2, 0, 0⟩ = ⟨0, 0, 0⟩ ∧
    headPoseOf ⟨1, 0, 0⟩ ⟨2, 0, 0⟩ = .error ("Invalid normal vector: zero magnitude") ∧
    headPoseOf ⟨1, 0, 0⟩ ⟨2, 0, 0⟩ ≠ .ok (0, 0, 0) := by
  have hc : cross3 ⟨1, 0, 0⟩ ⟨2, 0, 0⟩ = ⟨0, 0, 0⟩ := by
    simp [cross3]
  have hq : normSq (cross3 ⟨1, 0, 0⟩ ⟨2, 0, 0⟩) = 0 := (normSq_eq_zero_iff _).mpr hc
  have he : headPoseOf ⟨1, 0, 0⟩ ⟨2, 0, 0⟩ = .error ("Invalid normal vector: zero magnitude") := by
    simp only [headPoseOf, hq]
    norm_num
  refine ⟨hc, he, ?_⟩
  rw [he]
  simp

/-- C3 (amended): calculateEyeRotation in src/unnamed/part_002 has no epsilon
    guard — its x-rotation component is NaN exactly when the iris horizontal
    extent is zero or the vertical extent exceeds the horizontal one (the
    Math.acos argument then lies outside [-1,1]); on such inputs the NaN
    escapes in the returned rotation instead of a {0,0,0} fallback. -/
theorem C3_rotation_nan (e : EyeLandmarks) :
    (calculateEyeRotation e).1 = none ↔
      (irisWidthSq e = 0 ∨ irisWidthSq e < irisHeightSq e) := by
  have hw : (0 : ℚ) ≤ irisWidthSq e := distSq_nonneg _ _
  have hh : (0 : ℚ) ≤ irisHeightSq e := distSq_nonneg _ _
  by_cases h0 : irisWidthSq e = 0
  · simp only [calculateEyeRotation, h0]
    norm_num
  · have hwpos : 0 < irisWidthSq e := lt_of_le_of_ne hw (Ne.symm h0)
    have hwR : (0 : ℝ) < ((irisWidthSq e : ℚ) : ℝ) := by exact_mod_cast hwpos
    have hs : Real.sqrt ((irisWidthSq e : ℚ) : ℝ) ≠ 0 := by
      rw [Real.sqrt_ne_zero']
      exact hwR
    have hspos : 0 < Real.sqrt ((irisWidthSq e : ℚ) : ℝ) := Real.sqrt_pos.mpr hwR
    have hcond : (-1 ≤ Real.sqrt ((irisHeightSq e : ℚ) : ℝ) / Real.sqrt ((irisWidthSq e : ℚ) : ℝ) ∧
        Real.sqrt ((irisHeightSq e : ℚ) : ℝ) / Real.sqrt ((irisWidthSq e : ℚ) : ℝ) ≤ 1) ↔
        irisHeightSq e ≤ irisWidthSq e := by
      constructor
      · intro hc
        have := (div_le_one hspos).mp hc.2
        have := (Real.sqrt_le_sqrt_iff (by exact_mod_cast hw)).mp this
        exact_mod_cast this
      · intro hc
        constructor
        · calc (-1 : ℝ) ≤ 0 := by norm_num
            _ ≤ _ := div_nonneg (Real.sqrt_nonneg _) (Real.sqrt_nonneg _)
        · rw [div_le_one hspos]
          rw [Real.sqrt_le_sqrt_iff (by exact_mod_cast hw)]
          exact_mod_cast hc
    simp only [calculateEyeRotation, if_neg hs, acosJS]
    rw [ite_eq_right_iff]
    constructor
    · intro himp
      right
      by_contra hlt
      push_neg at hlt
      have : irisHeightSq e ≤ irisWidthSq e := hlt
      exact Option.some_ne_none _ (himp (hcond.mpr this))
    · intro hor hc
      rcases hor with h1 | h2
      · exact absurd h1 h0
      · exact absurd (hcond.mp hc) (not_le.mpr h2)

/-- Fully degenerate eye input: every landmark at the origin, so both iris
    extents are zero (far below any epsilon). -/
def degenerateEye : EyeLandmarks :=
  ⟨⟨0, 0, 0⟩, ⟨0, 0, 0⟩, ⟨0, 0, 0⟩, ⟨0, 0, 0⟩, ⟨0, 0, 0⟩, ⟨0, 0, 0⟩⟩

/-- C3 counterexample: on the degenerate eye whose iris extents are both zero,
    calculateEyeRotation returns NaN (modelled as none) in the x-rotation
    rather than the zero rotation {0,0,0}, refuting both the epsilon-guard
    and the no-NaN-escape parts of the claim. -/
theorem C3_counterexample :
    irisWidthSq degenerateEye = 0 ∧ irisHeightSq degenerateEye = 0 ∧
    calculateEyeRotation degenerateEye = (none, 0, 0) ∧
    calculateEyeRotation degenerateEye ≠ (some 0, 0, 0) := by
  have hw0 : irisWidthSq degenerateEye = 0 := by norm_num [irisWidthSq, distSq, degenerateEye]
  have hh0 : irisHeightSq degenerateEye = 0 := by norm_num [irisHeightSq, distSq, degenerateEye]
  have heval : calculateEyeRotation degenerateEye = (none, 0, 0) := by
    simp only [calculateEyeRotation, hw0, hh0]
    norm_num [atan2JS, degenerateEye, Real.sqrt_zero]
  refine ⟨hw0, hh0, heval, ?_⟩
  rw [heval]
  simp

/-- C10: calculateEyeGazeVector returns a vector of Euclidean length exactly 1
    (its squared norm is 1) whose x-component has the opposite sign of the raw
    iris x-offset from the eye-corner midpoint, while y and z keep the raw
    offset's sign; `eyeWidth` and `mag` are the exact values of the two
    Math.sqrt calls, constrained by the hypotheses. -/
theorem C10_eye_gaze_vector (iris inner outer : Point3D) (eyeWidth mag : ℚ)
    (hew : 0 < eyeWidth) (hewSq : eyeWidth ^ 2 = distSq outer inner)
    (hmag : 0 < mag) (hmagSq : mag ^ 2 = normSq (irisOffsetOf iris inner outer eyeWidth)) :
    normSq (calculateEyeGazeVector iris inner outer eyeWidth mag) = 1 ∧
    (0 < iris.x - (inner.x + outer.x) / 2 →
      (calculateEyeGazeVector iris inner outer eyeWidth mag).x < 0) ∧
    (iris.x - (inner.x + outer.x) / 2 < 0 →
      0 < (calculateEyeGazeVector iris inner outer eyeWidth mag).x) ∧
    (iris.x - (inner.x + outer.x) / 2 = 0 →
      (calculateEyeGazeVector iris inner outer eyeWidth mag).x = 0) ∧
    (0 < iris.y - (inner.y + outer.y) / 2 →
      0 < (calculateEyeGazeVector iris inner outer eyeWidth mag).y) ∧
    (iris.y - (inner.y + outer.y) / 2 < 0 →
      (calculateEyeGazeVector iris inner outer eyeWidth mag).y < 0) ∧
    (iris.y - (inner.y + outer.y) / 2 = 0 →
      (calculateEyeGazeVector iris inner outer eyeWidth mag).y = 0) ∧
    (0 < iris.z - (inner.z + outer.z) / 2 →
      0 < (calculateEyeGazeVector iris inner outer eyeWidth mag).z) ∧
    (iris.z - (inner.z + outer.z) / 2 < 0 →
      (calculateEyeGazeVector iris inner outer eyeWidth mag).z < 0) ∧
    (iris.z - (inner.z + outer.z) / 2 = 0 →
      (calculateEyeGazeVector iris inner outer eyeWidth mag).z = 0) := by
  have hm0 : mag ≠ 0 := ne_of_gt hmag
  have hox : (irisOffsetOf iris inner outer eyeWidth).x =
      (iris.x - (inner.x + outer.x) / 2) / eyeWidth := rfl
  have hoy : (irisOffsetOf iris inner outer eyeWidth).y =
      (iris.y - (inner.y + outer.y) / 2) / eyeWidth := rfl
  have hoz : (irisOffsetOf iris inner outer eyeWidth).z =
      (iris.z - (inner.z + outer.z) / 2) / eyeWidth := rfl
  have expand : ∀ A B C M : ℚ, M ≠ 0 → M ^ 2 = A * A + B * B + C * C →
      (-(A / M)) * (-(A / M)) + (B / M) * (B / M) + (C / M) * (C / M) = 1 := by
    intro A B C M hM h
    field_simp
    linear_combination h.symm
  refine ⟨?_, ?_, ?_, ?_, ?_, ?_, ?_, ?_, ?_, ?_⟩
  · show (-((irisOffsetOf iris inner outer eyeWidth).x / mag)) *
        (-((irisOffsetOf iris inner outer eyeWidth).x / mag)) +
        ((irisOffsetOf iris inner outer eyeWidth).y / mag) *
        ((irisOffsetOf iris inner outer eyeWidth).y / mag) +
        ((irisOffsetOf iris inner outer eyeWidth).z / mag) *
        ((irisOffsetOf iris inner outer eyeWidth).z / mag) = 1
    exact expand _ _ _ _ hm0 hmagSq
  · intro hx
    show -((irisOffsetOf iris inner outer eyeWidth).x / mag) < 0
    rw [hox]
    exact neg_lt_zero.mpr (div_pos (div_pos hx hew) hmag)
  · intro hx
    show 0 < -((irisOffsetOf iris inner outer eyeWidth).x / mag)
    rw [hox]
    exact neg_pos.mpr (div_neg_of_neg_of_pos (div_neg_of_neg_of_pos hx hew) hmag)
  · intro hx
    show -((irisOffsetOf iris inner outer eyeWidth).x / mag) = 0
    rw [hox, hx]
    simp
  · intro hy
    show 0 < (irisOffsetOf iris inner outer eyeWidth).y / mag
    rw [hoy]
    exact div_pos (div_pos hy hew) hmag
  · intro hy
    show (irisOffsetOf iris inner outer eyeWidth).y / mag < 0
    rw [hoy]
    exact div_neg_of_neg_of_pos (div_neg_of_neg_of_pos hy hew) hmag
  · intro hy
    show (irisOffsetOf iris inner outer eyeWidth).y / mag = 0
    rw [hoy, hy]
    simp
  · intro hz
    show 0 < (irisOffsetOf iris inner outer eyeWidth).z / mag
    rw [hoz]
    exact div_pos (div_pos hz hew) hmag
  · intro hz
    show (irisOffsetOf iris inner outer eyeWidth).z / mag < 0
    rw [hoz]
    exact div_neg_of_neg_of_pos (div_neg_of_neg_of_pos hz hew) hmag
  · intro hz
    show (irisOffsetOf iris inner outer eyeWidth).z / mag = 0
    rw [hoz, hz]
    simp

/-- C10 witness: inner corner (0,0,0), outer corner (2,0,0) (eye width 2),
    iris at (2,2,2): the raw offset is (1,2,2), the normalized offset has
    magnitude 3/2, and the returned vector has squared norm 1 with a negative
    x-component (opposite sign of the positive raw x-offset). -/
theorem C10_witness :
    (0 : ℚ) < 2 ∧ (2 : ℚ) ^ 2 = distSq ⟨2, 0, 0⟩ ⟨0, 0, 0⟩ ∧
    (0 : ℚ) < 3 / 2 ∧
    ((3 : ℚ) / 2) ^ 2 = normSq (irisOffsetOf ⟨2, 2, 2⟩ ⟨0, 0, 0⟩ ⟨2, 0, 0⟩ 2) ∧
    normSq (calculateEyeGazeVector ⟨2, 2, 2⟩ ⟨0, 0, 0⟩ ⟨2, 0, 0⟩ 2 (3 / 2)) = 1 ∧
    (calculateEyeGazeVector ⟨2, 2, 2⟩ ⟨0, 0, 0⟩ ⟨2, 0, 0⟩ 2 (3 / 2)).x < 0 :=
  ⟨by norm_num, by norm_num [distSq], by norm_num,
   by norm_num [normSq, irisOffsetOf],
   (C10_eye_gaze_vector ⟨2, 2, 2⟩ ⟨0, 0, 0⟩ ⟨2, 0, 0⟩ 2 (3 / 2)
      (by norm_num) (by norm_num [distSq]) (by norm_num)
      (by norm_num [normSq, irisOffsetOf])).1,
   (C10_eye_gaze_vector ⟨2, 2, 2⟩ ⟨0, 0, 0⟩ ⟨2, 0, 0⟩ 2 (3 / 2)
      (by norm_num) (by norm_num [distSq]) (by norm_num)
      (by norm_num [normSq, irisOffsetOf])).2.1 (by norm_num)⟩

/-- C6 (amended): on the frame that completes a grid point (the 30th buffered
    sample), App.tsx lines 745-773 either discard the buffered samples and
    advance the point index with no solver call (points 0-7), or — on the
    ninth point (index 8) — invoke the solver exactly once with a single
    averaged sample, the ninth target (0.9, 0.9) and the last head pose only:
    the solver never receives the samples of the other eight targets. -/
theorem C6_solver_input (st : CalibrationState) (g hp : Point3D)
    (hmode : st.mode = CalibrationMode.collecting)
    (hlen : st.eyePositions.length = 29) :
    (st.currentPoint < 8 →
      processCalibrationFrame st g hp =
        (⟨CalibrationMode.collecting, st.currentPoint + 1, [], []⟩, none)) ∧
    (st.currentPoint = 8 →
      processCalibrationFrame st g hp =
        (⟨CalibrationMode.complete, 8, st.eyePositions ++ [g], st.headPoses ++ [hp]⟩,
         some ⟨[averagePoint (st.eyePositions ++ [g])], [⟨0.9, 0.9⟩], [hp]⟩)) := by
  have h30 : 30 ≤ (st.eyePositions ++ [g]).length := by
    simp [hlen]
  constructor
  · intro hpt
    rw [processCalibrationFrame, if_pos hmode, if_pos h30, if_pos hpt]
  · intro hpt
    rw [processCalibrationFrame, if_pos hmode, if_pos h30,
      if_neg (by rw [hpt]; exact lt_irrefl 8)]
    rw [hpt]
    have hlast : (st.headPoses ++ [hp]).getLastD ⟨0, 0, 0⟩ = hp :=
      List.getLastD_concat _ _ _
    rw [hlast]
    rfl

/-- C6 witness: a collecting-mode state at the ninth point with 29 buffered
    zero samples; the arriving frame completes the session with a solver call
    that carries exactly one (averaged) sample. -/
theorem C6_witness :
    (⟨CalibrationMode.collecting, 8, List.replicate 29 ⟨0, 0, 0⟩,
      List.replicate 29 ⟨0, 0, 1⟩⟩ : CalibrationState).mode = CalibrationMode.collecting ∧
    (⟨CalibrationMode.collecting, 8, List.replicate 29 ⟨0, 0, 0⟩,
      List.replicate 29 ⟨0, 0, 1⟩⟩ : CalibrationState).eyePositions.length = 29 ∧
    processCalibrationFrame
        ⟨CalibrationMode.collecting, 8, List.replicate 29 ⟨0, 0, 0⟩,
         List.replicate 29 ⟨0, 0, 1⟩⟩ ⟨0, 0, 0⟩ ⟨0, 0, 1⟩ =
      (⟨CalibrationMode.complete, 8, List.replicate 29 ⟨0, 0, 0⟩ ++ [⟨0, 0, 0⟩],
        List.replicate 29 ⟨0, 0, 1⟩ ++ [⟨0, 0, 1⟩]⟩,
       some ⟨[averagePoint (List.replicate 29 ⟨0, 0, 0⟩ ++ [⟨0, 0, 0⟩])],
             [⟨0.9, 0.9⟩], [⟨0, 0, 1⟩]⟩) :=
  ⟨rfl, by simp,
   (C6_solver_input
      ⟨CalibrationMode.collecting, 8, List.replicate 29 ⟨0, 0, 0⟩,
       List.replicate 29 ⟨0, 0, 1⟩⟩ ⟨0, 0, 0⟩ ⟨0, 0, 1⟩ rfl (by simp)).2 rfl⟩

/-- Once the session has left collecting mode, further frames change nothing
    and never invoke the solver. -/
lemma runCalibration_stopped (st : CalibrationState)
    (hmode : st.mode = CalibrationMode.complete) :
    ∀ l, runCalibration st l = (st, []) := by
  intro l
  induction l with
  | nil => rfl
  | cons fr rest ih =>
    obtain ⟨g, hp⟩ := fr
    have hstep : processCalibrationFrame st g hp = (st, none) := by
      rw [processCalibrationFrame, if_neg (by rw [hmode]; simp)]
    simp only [runCalibration, hstep, ih]
    rfl

/-- Feeding the k frames that finish the current grid point (the buffer holds
    30 - k samples) either advances to the next point with empty buffers and no
    solver call, or — on point 8 — completes the session with the single
    solver call described in the C6 analysis. -/
lemma runCalibration_segment (g hp : Point3D) :
    ∀ (k c : ℕ) (e hd : List Point3D) (r : ℕ),
      0 < k → e.length + k = 30 →
      runCalibration ⟨CalibrationMode.collecting, c, e, hd⟩
          (List.replicate (k + r) (g, hp)) =
        (if c < 8 then
          runCalibration ⟨CalibrationMode.collecting, c + 1, [], []⟩
            (List.replicate r (g, hp))
         else
          ((⟨CalibrationMode.complete, c, e ++ List.replicate k g,
             hd ++ List.replicate k hp⟩ : CalibrationState),
           [⟨[averagePoint (e ++ List.replicate k g)],
             [CALIBRATION_POINTS.getD c ⟨0, 0⟩], [hp]⟩])) := by
  intro k
  induction k with
  | zero =>
    intro c e hd r h0 _
    exact absurd h0 (lt_irrefl 0)
  | succ j ih =>
    intro c e hd r _ hlen
    have hrepl : j + 1 + r = (j + r) + 1 := by omega
    rw [hrepl, List.replicate_succ]
    by_cases hj : j = 0
    · subst hj
      have he29 : e.length = 29 := by omega
      have htrig : 30 ≤ (e ++ [g]).length := by simp [he29]
      have hstep : processCalibrationFrame ⟨CalibrationMode.collecting, c, e, hd⟩ g hp =
          (if c < 8 then
            ((⟨CalibrationMode.collecting, c + 1, [], []⟩ : CalibrationState), none)
           else
            ((⟨CalibrationMode.complete, c, e ++ [g], hd ++ [hp]⟩ : CalibrationState),
             some ⟨[averagePoint (e ++ [g])], [CALIBRATION_POINTS.getD c ⟨0, 0⟩], [hp]⟩)) := by
        rw [processCalibrationFrame, if_pos rfl, if_pos htrig]
        by_cases hc : c < 8
        · rw [if_pos hc, if_pos hc]
        · rw [if_neg hc, if_neg hc]
          rw [List.getLastD_concat]
      by_cases hc : c < 8
      · rw [if_pos hc] at hstep
        simp only [runCalibration, hstep, if_pos hc]
        simp
      · rw [if_neg hc] at hstep
        simp only [runCalibration, hstep, if_neg hc]
        rw [runCalibration_stopped _ rfl]
        simp
    · have hjpos : 0 < j := Nat.pos_of_ne_zero hj
      have hnotrig : ¬ 30 ≤ (e ++ [g]).length := by
        simp only [List.length_append, List.length_singleton]
        omega
      have hstep : processCalibrationFrame ⟨CalibrationMode.collecting, c, e, hd⟩ g hp =
          ((⟨CalibrationMode.collecting, c, e ++ [g], hd ++ [hp]⟩ : CalibrationState), none) := by
        rw [processCalibrationFrame, if_pos rfl, if_neg hnotrig]
      have hlen' : (e ++ [g]).length + j = 30 := by
        simp only [List.length_append, List.length_singleton]
        omega
      simp only [runCalibration, hstep]
      rw [ih c (e ++ [g]) (hd ++ [hp]) r hjpos hlen']
      have hegs : (e ++ [g]) ++ List.replicate j g = e ++ List.replicate (j + 1) g := by
        rw [List.append_assoc, List.singleton_append, ← List.replicate_succ]
      have hhps : (hd ++ [hp]) ++ List.replicate j hp = hd ++ List.replicate (j + 1) hp := by
        rw [List.append_assoc, List.singleton_append, ← List.replicate_succ]
      by_cases hc : c < 8
      · rw [if_pos hc, if_pos hc]
        simp
      · rw [if_neg hc, if_neg hc]
        rw [hegs, hhps]
        simp

/-- A 30-frame segment at a grid point below index 8 simply advances the
    point, discarding the collected samples. -/
lemma runCalibration_advance (g hp : Point3D) (c r : ℕ) (hc : c < 8) :
    runCalibration ⟨CalibrationMode.collecting, c, [], []⟩
        (List.replicate (30 + r) (g, hp)) =
      runCalibration ⟨CalibrationMode.collecting, c + 1, [], []⟩
        (List.replicate r (g, hp)) := by
  rw [runCalibration_segment g hp 30 c [] [] r (by norm_num) (by simp)]
  rw [if_pos hc]

/-- C6 counterexample: a full 270-frame session (30 constant frames per grid
    point) invokes the solver exactly once, and that single call carries one
    averaged sample and the ninth target only — not the full set of samples
    from all nine targets — refuting the solver-input-completeness claim. -/
theorem C6_counterexample :
    (runCalibration initialCalibrationState
        (List.replicate 270 (⟨0, 0, 0⟩, ⟨0, 0, 1⟩))).2 =
      [⟨[⟨0, 0, 0⟩], [⟨0.9, 0.9⟩], [⟨0, 0, 1⟩]⟩] ∧
    (⟨[⟨0, 0, 0⟩], [⟨0.9, 0.9⟩], [⟨0, 0, 1⟩]⟩ : SolverCall).eyePositions.length = 1 ∧
    (⟨[⟨0, 0, 0⟩], [⟨0.9, 0.9⟩], [⟨0, 0, 1⟩]⟩ : SolverCall).screenPositions ≠
      CALIBRATION_POINTS := by
  have havg : averagePoint (List.replicate 30 (⟨0, 0, 0⟩ : Point3D)) = ⟨0, 0, 0⟩ := by
    simp [averagePoint]
  have hrun : runCalibration initialCalibrationState
      (List.replicate 270 (⟨0, 0, 0⟩, ⟨0, 0, 1⟩)) =
      (⟨CalibrationMode.complete, 8, List.replicate 30 ⟨0, 0, 0⟩,
        List.replicate 30 ⟨0, 0, 1⟩⟩,
       [⟨[⟨0, 0, 0⟩], [⟨0.9, 0.9⟩], [⟨0, 0, 1⟩]⟩]) := by
    rw [initialCalibrationState]
    rw [show (270 : ℕ) = 30 + 240 from rfl,
      runCalibration_advance _ _ 0 240 (by norm_num)]
    rw [show (240 : ℕ) = 30 + 210 from rfl,
      runCalibration_advance _ _ 1 210 (by norm_num)]
    rw [show (210 : ℕ) = 30 + 180 from rfl,
      runCalibration_advance _ _ 2 180 (by norm_num)]
    rw [show (180 : ℕ) = 30 + 150 from rfl,
      runCalibration_advance _ _ 3 150 (by norm_num)]
    rw [show (150 : ℕ) = 30 + 120 from rfl,
      runCalibration_advance _ _ 4 120 (by norm_num)]
    rw [show (120 : ℕ) = 30 + 90 from rfl,
      runCalibration_advance _ _ 5 90 (by norm_num)]
    rw [show (90 : ℕ) = 30 + 60 from rfl,
      runCalibration_advance _ _ 6 60 (by norm_num)]
    rw [show (60 : ℕ) = 30 + 30 from rfl,
      runCalibration_advance _ _ 7 30 (by norm_num)]
    rw [show (30 : ℕ) = 30 + 0 from rfl,
      runCalibration_segment ⟨0, 0, 0⟩ ⟨0, 0, 1⟩ 30 8 [] [] 0 (by norm_num) (by simp)]
    rw [if_neg (lt_irrefl 8)]
    simp only [List.nil_append, havg]
    rfl
  rw [hrun]
  refine ⟨rfl, rfl, ?_⟩
  simp [CALIBRATION_POINTS]

/-- The solver loop rows for mapped sample lists with no head poses supplied:
    every row receives the default head pose (0, 0, 1). -/
lemma calibRows_map_nil {α : Type} (l : List α) (f : α → Point3D) (g : α → Point2D) :
    calibRows (l.map f) (l.map g) [] =
      l.map (fun a => (f a, g a, (⟨0, 0, 1⟩ : Point3D))) := by
  induction l with
  | nil => rfl
  | cons a t ih => simp [calibRows, ih]

/-- The solver loop rows when every sample is the same: a replicated row. -/
lemma calibRows_replicate (k : ℕ) (p : Point3D) (s : Point2D) (hp : Point3D) :
    calibRows (List.replicate k p) (List.replicate k s) (List.replicate k hp) =
      List.replicate k (p, s, hp) := by
  induction k with
  | zero => rfl
  | succ j ih =>
    simp only [List.replicate_succ, calibRows]
    simp only [List.headD_cons, List.tail_cons]
    rw [ih]

/-- calibSum over a replicated row list. -/
lemma calibSum_replicate (k : ℕ) (r : Point3D × Point2D × Point3D)
    (F : Point3D → Point2D → Point3D → ℚ) :
    calibSum (List.replicate k r) F = k * F r.1 r.2.1 r.2.2 := by
  unfold calibSum
  rw [List.map_replicate, List.sum_replicate, nsmul_eq_mul]

/-- Linear decomposition of a mapped sum. -/
lemma sum_map_linear {α : Type} (l : List α) (u v : α → ℚ) (c d : ℚ) :
    (l.map fun a => c * u a + d * v a).sum = c * (l.map u).sum + d * (l.map v).sum := by
  induction l with
  | nil => simp
  | cons a t ih =>
    simp only [List.map_cons, List.sum_cons, ih]
    ring

/-- Affine decomposition of a mapped sum. -/
lemma sum_map_affine {α : Type} (l : List α) (u : α → ℚ) (c d : ℚ) :
    (l.map fun a => c * u a + d).sum = c * (l.map u).sum + d * l.length := by
  induction l with
  | nil => simp
  | cons a t ih =>
    simp only [List.map_cons, List.sum_cons, ih, List.length_cons]
    push_cast
    ring

/-- A nonsingular determinant forces a nonempty eye-position list. -/
lemma eyes_ne_zero_of_det (eyes : List Point3D) (screens : List Point2D)
    (heads : List Point3D) (hdet : ¬ |calibDet eyes screens heads| < 1e-10) :
    (eyes.length : ℚ) ≠ 0 := by
  cases eyes with
  | nil =>
    exfalso
    apply hdet
    simp [calibDet, calibRows, calibSum]
    norm_num
  | cons a t =>
    simp only [List.length_cons]
    push_cast
    positivity

/-- One plus an absolute value never vanishes. -/
lemma one_add_abs_ne_zero (q : ℚ) : 1 + |q| ≠ 0 := by
  positivity

/-- C8: the calibration solver never fails — for every finite sample set it
    returns a matrix with all entries finite (no division ever hits a zero
    denominator: the determinant branch guards the coefficient divisions, a
    nonsingular determinant forces a nonempty sample list for the divisions by
    n, and the depth-scale denominator is at least 1) — and on a fully
    degenerate set of identical samples the determinant is zero, so the stated
    fallback matrix [[1,0,0],[0,1,0]] is returned. -/
theorem C8_solver_never_fails :
    (∀ (eyes : List Point3D) (screens : List Point2D) (heads : List Point3D),
        ∃ M, calculateCalibrationMatrix eyes screens heads = .ok M) ∧
    (∀ (p : Point3D) (s : Point2D) (hp : Point3D) (k : ℕ),
        calculateCalibrationMatrix (List.replicate k p) (List.replicate k s)
          (List.replicate k hp) = .ok ⟨1, 0, 0, 0, 1, 0⟩) := by
  constructor
  · intro eyes screens heads
    by_cases hdet : |calibDet eyes screens heads| < 1e-10
    · refine ⟨⟨1, 0, 0, 0, 1, 0⟩, ?_⟩
      simp only [calibDet] at hdet
      simp only [calculateCalibrationMatrix]
      rw [if_pos hdet]
    · have hn0 : ((eyes.length : ℚ)) ≠ 0 := eyes_ne_zero_of_det eyes screens heads hdet
      have hdet0 : calibDet eyes screens heads ≠ 0 := by
        intro h
        rw [h] at hdet
        norm_num at hdet
      simp only [calibDet] at hdet hdet0
      simp only [calculateCalibrationMatrix]
      rw [if_neg hdet]
      simp only [fdiv, hdet0, if_false, hn0, Bind.bind, Except.bind, if_neg,
        one_add_abs_ne_zero]
      exact ⟨_, rfl⟩
  · intro p s hp k
    have hrows := calibRows_replicate k p s hp
    have h0 : calibSum (List.replicate k (p, s, hp))
          (fun e _ hp => sampleWeight e hp * e.x * e.x) *
        calibSum (List.replicate k (p, s, hp))
          (fun e _ hp => sampleWeight e hp * e.y * e.y) -
        calibSum (List.replicate k (p, s, hp))
          (fun e _ hp => sampleWeight e hp * e.x * e.y) *
        calibSum (List.replicate k (p, s, hp))
          (fun e _ hp => sampleWeight e hp * e.x * e.y) = 0 := by
      simp only [calibSum_replicate]
      ring
    simp only [calculateCalibrationMatrix, hrows]
    rw [h0, if_pos (show |(0 : ℚ)| < 1e-10 by norm_num)]

/-- C7 (amended): the solver recovers the exact linear map target = 2*gaze + 3
    only for centered sample sets — 9 samples with zero depth, defaulted head
    poses, gaze coordinates summing to zero in both axes and a nonsingular
    moment matrix yield exactly [[2,0,3],[0,2,3]]; for general (uncentered)
    samples the missing intercept column of the normal equations biases the
    linear coefficient (see the counterexample). -/
theorem C7_centered_recovery (l : List (ℚ × ℚ))
    (hlen : l.length = 9)
    (hx : (l.map fun p => p.1).sum = 0)
    (hy : (l.map fun p => p.2).sum = 0)
    (hdet : ¬ |calibDet (l.map fun p => ⟨p.1, p.2, 0⟩)
        (l.map fun p => ⟨2 * p.1 + 3, 2 * p.2 + 3⟩) []| < 1e-10) :
    calculateCalibrationMatrix (l.map fun p => ⟨p.1, p.2, 0⟩)
        (l.map fun p => ⟨2 * p.1 + 3, 2 * p.2 + 3⟩) [] = .ok ⟨2, 0, 3, 0, 2, 3⟩ := by
  have hrows := calibRows_map_nil l (fun p => (⟨p.1, p.2, 0⟩ : Point3D))
      (fun p => (⟨2 * p.1 + 3, 2 * p.2 + 3⟩ : Point2D))
  have hw : ∀ x y : ℚ, sampleWeight ⟨x, y, 0⟩ ⟨0, 0, 1⟩ = 1 := by
    intro x y
    norm_num [sampleWeight]
  have hS : ∀ F : Point3D → Point2D → Point3D → ℚ,
      calibSum (calibRows (l.map fun p => ⟨p.1, p.2, 0⟩)
          (l.map fun p => ⟨2 * p.1 + 3, 2 * p.2 + 3⟩) []) F =
        (l.map fun p => F ⟨p.1, p.2, 0⟩ ⟨2 * p.1 + 3, 2 * p.2 + 3⟩ ⟨0, 0, 1⟩).sum := by
    intro F
    rw [hrows]
    simp only [calibSum, List.map_map]
    rfl
  have hSX : calibSum (calibRows (l.map fun p => ⟨p.1, p.2, 0⟩)
      (l.map fun p => ⟨2 * p.1 + 3, 2 * p.2 + 3⟩) [])
      (fun e _ hp => sampleWeight e hp * e.x) = 0 := by
    rw [hS]
    simp only [hw, one_mul]
    exact hx
  have hSY : calibSum (calibRows (l.map fun p => ⟨p.1, p.2, 0⟩)
      (l.map fun p => ⟨2 * p.1 + 3, 2 * p.2 + 3⟩) [])
      (fun e _ hp => sampleWeight e hp * e.y) = 0 := by
    rw [hS]
    simp only [hw, one_mul]
    exact hy
  have hSZ : calibSum (calibRows (l.map fun p => ⟨p.1, p.2, 0⟩)
      (l.map fun p => ⟨2 * p.1 + 3, 2 * p.2 + 3⟩) [])
      (fun e _ hp => sampleWeight e hp * e.z) = 0 := by
    rw [hS]
    simp [hw]
  have hSSX : calibSum (calibRows (l.map fun p => ⟨p.1, p.2, 0⟩)
      (l.map fun p => ⟨2 * p.1 + 3, 2 * p.2 + 3⟩) [])
      (fun _ s _ => s.x) = 27 := by
    rw [hS]
    simp only
    rw [sum_map_affine l (fun p => p.1) 2 3, hx, hlen]
    norm_num
  have hSSY : calibSum (calibRows (l.map fun p => ⟨p.1, p.2, 0⟩)
      (l.map fun p => ⟨2 * p.1 + 3, 2 * p.2 + 3⟩) [])
      (fun _ s _ => s.y) = 27 := by
    rw [hS]
    simp only
    rw [sum_map_affine l (fun p => p.2) 2 3, hy, hlen]
    norm_num
  have hSXSX : calibSum (calibRows (l.map fun p => ⟨p.1, p.2, 0⟩)
      (l.map fun p => ⟨2 * p.1 + 3, 2 * p.2 + 3⟩) [])
      (fun e s hp => sampleWeight e hp * e.x * s.x) =
      2 * (l.map fun p => p.1 * p.1).sum := by
    rw [hS]
    simp only [hw, one_mul]
    have hb : (fun p : ℚ × ℚ => p.1 * (2 * p.1 + 3)) =
        fun p : ℚ × ℚ => 2 * (p.1 * p.1) + 3 * p.1 := by
      funext p
      ring
    rw [hb, sum_map_linear, hx]
    ring
  have hSYSX : calibSum (calibRows (l.map fun p => ⟨p.1, p.2, 0⟩)
      (l.map fun p => ⟨2 * p.1 + 3, 2 * p.2 + 3⟩) [])
      (fun e s hp => sampleWeight e hp * e.y * s.x) =
      2 * (l.map fun p => p.1 * p.2).sum := by
    rw [hS]
    simp only [hw, one_mul]
    have hb : (fun p : ℚ × ℚ => p.2 * (2 * p.1 + 3)) =
        fun p : ℚ × ℚ => 2 * (p.1 * p.2) + 3 * p.2 := by
      funext p
      ring
    rw [hb, sum_map_linear, hy]
    ring
  have hSXSY : calibSum (calibRows (l.map fun p => ⟨p.1, p.2, 0⟩)
      (l.map fun p => ⟨2 * p.1 + 3, 2 * p.2 + 3⟩) [])
      (fun e s hp => sampleWeight e hp * e.x * s.y) =
      2 * (l.map fun p => p.1 * p.2).sum := by
    rw [hS]
    simp only [hw, one_mul]
    have hb : (fun p : ℚ × ℚ => p.1 * (2 * p.2 + 3)) =
        fun p : ℚ × ℚ => 2 * (p.1 * p.2) + 3 * p.1 := by
      funext p
      ring
    rw [hb, sum_map_linear, hx]
    ring
  have hSYSY : calibSum (calibRows (l.map fun p => ⟨p.1, p.2, 0⟩)
      (l.map fun p => ⟨2 * p.1 + 3, 2 * p.2 + 3⟩) [])
      (fun e s hp => sampleWeight e hp * e.y * s.y) =
      2 * (l.map fun p => p.2 * p.2).sum := by
    rw [hS]
    simp only [hw, one_mul]
    have hb : (fun p : ℚ × ℚ => p.2 * (2 * p.2 + 3)) =
        fun p : ℚ × ℚ => 2 * (p.2 * p.2) + 3 * p.2 := by
      funext p
      ring
    rw [hb, sum_map_linear, hy]
    ring
  have hSXX : calibSum (calibRows (l.map fun p => ⟨p.1, p.2, 0⟩)
      (l.map fun p => ⟨2 * p.1 + 3, 2 * p.2 + 3⟩) [])
      (fun e _ hp => sampleWeight e hp * e.x * e.x) =
      (l.map fun p => p.1 * p.1).sum := by
    rw [hS]
    simp only [hw, one_mul]
  have hSXY : calibSum (calibRows (l.map fun p => ⟨p.1, p.2, 0⟩)
      (l.map fun p => ⟨2 * p.1 + 3, 2 * p.2 + 3⟩) [])
      (fun e _ hp => sampleWeight e hp * e.x * e.y) =
      (l.map fun p => p.1 * p.2).sum := by
    rw [hS]
    simp only [hw, one_mul]
  have hSYY : calibSum (calibRows (l.map fun p => ⟨p.1, p.2, 0⟩)
      (l.map fun p => ⟨2 * p.1 + 3, 2 * p.2 + 3⟩) [])
      (fun e _ hp => sampleWeight e hp * e.y * e.y) =
      (l.map fun p => p.2 * p.2).sum := by
    rw [hS]
    simp only [hw, one_mul]
  have hdet' : ¬ |(l.map fun p => p.1 * p.1).sum * (l.map fun p => p.2 * p.2).sum -
      (l.map fun p => p.1 * p.2).sum * (l.map fun p => p.1 * p.2).sum| < 1e-10 := by
    intro h
    apply hdet
    simp only [calibDet]
    rw [hSXX, hSXY, hSYY]
    exact h
  have hD0 : (l.map fun p => p.1 * p.1).sum * (l.map fun p => p.2 * p.2).sum -
      (l.map fun p => p.1 * p.2).sum * (l.map fun p => p.1 * p.2).sum ≠ 0 := by
    intro h
    apply hdet'
    rw [h]
    norm_num
  have hn : (((l.map fun p => (⟨p.1, p.2, 0⟩ : Point3D)).length : ℚ)) = 9 := by
    rw [List.length_map, hlen]
    norm_num
  simp only [calculateCalibrationMatrix]
  rw [hSXX, hSXY, hSYY, hSX, hSY, hSZ, hSSX, hSSY, hSXSX, hSYSX, hSXSY, hSYSY, hn]
  rw [if_neg hdet']
  simp only [fdiv, hD0, if_false, Bind.bind, Except.bind, mul_zero, sub_zero, zero_div,
    abs_zero, add_zero, one_ne_zero, if_neg, ite_false]
  norm_num
  refine ⟨?_, Or.inl (by ring), Or.inl (by ring), ?_⟩
  · rw [div_eq_iff hD0]
    ring
  · rw [div_eq_iff hD0]
    ring

/-- Nine centered samples: the 3-by-3 grid over {-1, 0, 1} squared. -/
def centeredGrid9 : List (ℚ × ℚ) :=
  [(-1, -1), (0, -1), (1, -1), (-1, 0), (0, 0), (1, 0), (-1, 1), (0, 1), (1, 1)]

/-- C7 witness: the centered 3-by-3 grid satisfies every hypothesis of the
    amended recovery theorem, and the solver returns exactly
    [[2,0,3],[0,2,3]] on its samples. -/
theorem C7_witness :
    centeredGrid9.length = 9 ∧
    (centeredGrid9.map fun p => p.1).sum = 0 ∧
    (centeredGrid9.map fun p => p.2).sum = 0 ∧
    ¬ |calibDet (centeredGrid9.map fun p => ⟨p.1, p.2, 0⟩)
        (centeredGrid9.map fun p => ⟨2 * p.1 + 3, 2 * p.2 + 3⟩) []| < 1e-10 ∧
    calculateCalibrationMatrix (centeredGrid9.map fun p => ⟨p.1, p.2, 0⟩)
        (centeredGrid9.map fun p => ⟨2 * p.1 + 3, 2 * p.2 + 3⟩) [] =
      .ok ⟨2, 0, 3, 0, 2, 3⟩ :=
  ⟨by norm_num [centeredGrid9], by norm_num [centeredGrid9], by norm_num [centeredGrid9],
   by norm_num [centeredGrid9, calibDet, calibRows, calibSum, sampleWeight, abs_of_nonneg],
   C7_centered_recovery centeredGrid9 (by norm_num [centeredGrid9])
     (by norm_num [centeredGrid9]) (by norm_num [centeredGrid9])
     (by norm_num [centeredGrid9, calibDet, calibRows, calibSum, sampleWeight, abs_of_nonneg])⟩

/-- The source's own 3-by-3 calibration grid positions as gaze samples. -/
def gridGaze9 : List (ℚ × ℚ) :=
  [(0.1, 0.1), (0.5, 0.1), (0.9, 0.1),
   (0.1, 0.5), (0.5, 0.5), (0.9, 0.5),
   (0.1, 0.9), (0.5, 0.9), (0.9, 0.9)]

/-- C7 counterexample: on the source's own 9-point grid with exact targets
    target = 2 * gaze + 3, the fitted linear coefficient is 407/91 (about
    4.47), not 2 within 1e-6 — the missing intercept column of the normal
    equations lets the intercept bleed into the linear term. -/
theorem C7_counterexample :
    calculateCalibrationMatrix (gridGaze9.map fun p => ⟨p.1, p.2, 0⟩)
        (gridGaze9.map fun p => ⟨2 * p.1 + 3, 2 * p.2 + 3⟩) [] =
      .ok ⟨407 / 91, 225 / 91, 48 / 91, 225 / 91, 407 / 91, 48 / 91⟩ ∧
    ¬ |(407 : ℚ) / 91 - 2| ≤ 1e-6 := by
  constructor
  · norm_num [gridGaze9, calculateCalibrationMatrix, calibRows, calibSum, sampleWeight,
      fdiv, Bind.bind, Except.bind, abs_of_nonneg]
  · norm_num [abs_of_nonneg]
